import Mathlib

set_option maxHeartbeats 1000000

namespace SmartCycle

/-! Shallow embedding of the ride lifecycle of the smart-cycle-booking backend.
The definitions below are translated from src/backend/models/Ride.js,
src/backend/models/Cycle.js, src/backend/routes/rides.js (start, end, cancel
handlers), the cycle status PATCH handler of the cycles router, and the
statistics and revenue computations of src/backend/routes/users.js and
src/backend/routes/admin.js. Documents live in in-memory lists; object ids
are natural numbers; timestamps are integers (epoch milliseconds); exact
rationals stand for the JavaScript number arithmetic on these integral
inputs. -/

/-- JavaScript Math.round on an exact rational: round half toward positive infinity. -/
def jsRound (q : ℚ) : ℤ := ⌊q + 1/2⌋

/-- JavaScript remainder operator on integers (result carries the sign of the dividend). -/
def jsRem (a b : ℤ) : ℤ := a - b * (Int.tdiv a b)

/-- Cycle status enum of the cycle schema. -/
inductive CycleStatus
  | available
  | inUse
  | maintenance
  | outOfService
deriving DecidableEq, Repr

/-- Ride status enum of the ride schema. -/
inductive RideStatus
  | active
  | completed
  | cancelled
deriving DecidableEq, Repr

/-- Station document (only the fields the ride lifecycle reads). -/
structure Station where
  _id : Nat
  isActive : Bool
deriving DecidableEq, Repr

/-- Cycle document (fields the ride lifecycle and the status routes read). -/
structure Cycle where
  _id : Nat
  cycleId : String
  stationId : Nat
  status : CycleStatus
  isActive : Bool
deriving DecidableEq, Repr

/-- Feedback sub-document of a ride. -/
structure Feedback where
  rating : Option Int
  comment : Option String
deriving DecidableEq, Repr

/-- Ride document as declared by the ride schema. -/
structure Ride where
  _id : Nat
  userId : Nat
  cycleId : Nat
  stationId : Nat
  startStation : Nat
  endStation : Option Nat
  startTime : Int
  endTime : Option Int
  duration : Int
  status : RideStatus
  feedback : Option Feedback
deriving DecidableEq, Repr

/-- The document store: one list per collection, plus a fresh-id counter for ride inserts. -/
structure DB where
  cycles : List Cycle
  rides : List Ride
  stations : List Station
  nextRideId : Nat
deriving DecidableEq, Repr

/-- Ride.findActiveRide static of Ride.js: findOne over userId, status active, endTime null. -/
def findActiveRide (db : DB) (uid : Nat) : Option Ride :=
  db.rides.find? (fun r =>
    r.userId == uid && r.status == RideStatus.active && r.endTime == none)

/-- Modelled from the spec: the checkActiveRide middleware (middleware/auth.js is not
part of the source snapshot) resolves req.activeRide through the GetActiveRide lookup,
which is the Ride.findActiveRide static for the authenticated rider. -/
def checkActiveRide (db : DB) (uid : Nat) : Option Ride := findActiveRide db uid

/-- Cycle.findOne over cycleId (the external QR identifier) and isActive true, as issued
by both the start and the end handler. -/
def findCycleByExternalId (db : DB) (cid : String) : Option Cycle :=
  db.cycles.find? (fun c => c.cycleId == cid && c.isActive)

/-- Station.findById (no isActive filter in the source). -/
def findStationById (db : DB) (sid : Nat) : Option Station :=
  db.stations.find? (fun s => s._id == sid)

/-- Cycle.findById, as issued by the admin status PATCH handler. -/
def findCycleById (db : DB) (cid : Nat) : Option Cycle :=
  db.cycles.find? (fun c => c._id == cid)

/-- Write the status field of the cycle document with the given _id; models the
updateStatus instance method (set status, save) and Cycle.findByIdAndUpdate with a
status-only update document. -/
def updateCycleStatus (db : DB) (cid : Nat) (st : CycleStatus) : DB :=
  { db with cycles := db.cycles.map (fun c =>
      if c._id = cid then { c with status := st } else c) }

/-- Error taxonomy of the handlers, read off the response messages. -/
inductive ErrKind
  | validationFailed
  | conflict
  | notFound
  | invalidState
  | internalError
deriving DecidableEq, Repr

/-- HTTP outcome of a handler: status code, and the error kind on failure. -/
inductive Outcome
  | ok (code : Nat)
  | err (code : Nat) (kind : ErrKind)
deriving DecidableEq, Repr

/-- Body of POST /api/rides/start (fields may be absent; express-validator notEmpty). -/
structure StartReq where
  cycleId : Option String
  stationId : Option Nat
deriving DecidableEq, Repr

/-- Body of POST /api/rides/end. -/
structure EndReq where
  cycleId : Option String
  stationId : Option Nat
  feedback : Option Feedback
deriving DecidableEq, Repr

/-- express-validator checks on the optional feedback of the end handler:
rating an integer between 1 and 5, comment at most 500 characters. -/
def validFeedback : Option Feedback → Bool
  | none => true
  | some f =>
    (match f.rating with
     | none => true
     | some n => decide (1 ≤ n) && decide (n ≤ 5)) &&
    (match f.comment with
     | none => true
     | some s => decide (s.length ≤ 500))

/-- New ride document as built by Ride.create in the start handler; schema defaults
fill endTime null, endStation null, duration 0, status active, no feedback. -/
def mkRide (db : DB) (uid : Nat) (c : Cycle) (sid : Nat) (now : Int) : Ride :=
  { _id := db.nextRideId, userId := uid, cycleId := c._id, stationId := sid,
    startStation := sid, endStation := none, startTime := now, endTime := none,
    duration := 0, status := RideStatus.active, feedback := none }

/-- Insert a ride document into the store. -/
def addRide (db : DB) (r : Ride) : DB :=
  { db with rides := db.rides ++ [r], nextRideId := db.nextRideId + 1 }

/-- POST /api/rides/start handler of rides.js. Checks run in source order: validation,
req.activeRide (conflict), cycle lookup by external id with isActive, cycle status
available, station lookup, then Ride.create followed by cycle.updateStatus(in-use).
The failCycleWrite flag injects a store failure in the second write; the try/catch of
the handler then answers 500 with the ride document already inserted and the cycle
status untouched. -/
def startRide (db : DB) (uid : Nat) (req : StartReq) (now : Int)
    (failCycleWrite : Bool) : Outcome × DB :=
  match req.cycleId, req.stationId with
  | some cid, some sid =>
    if cid = "" then (Outcome.err 400 ErrKind.validationFailed, db)
    else
      match checkActiveRide db uid with
      | some _ => (Outcome.err 400 ErrKind.conflict, db)
      | none =>
        match findCycleByExternalId db cid with
        | none => (Outcome.err 404 ErrKind.notFound, db)
        | some cycle =>
          if cycle.status ≠ CycleStatus.available then
            (Outcome.err 400 ErrKind.invalidState, db)
          else
            match findStationById db sid with
            | none => (Outcome.err 404 ErrKind.notFound, db)
            | some _ =>
              let db1 := addRide db (mkRide db uid cycle sid now)
              if failCycleWrite then (Outcome.err 500 ErrKind.internalError, db1)
              else (Outcome.ok 201, updateCycleStatus db1 cycle._id CycleStatus.inUse)
  | _, _ => (Outcome.err 400 ErrKind.validationFailed, db)

/-- Update document of the end handler: endTime now, endStation, status completed,
feedback (or an empty object) applied to a ride document. -/
def completeDoc (sid : Nat) (now : Int) (fb : Option Feedback) (x : Ride) : Ride :=
  { x with endTime := some now, endStation := some sid,
           status := RideStatus.completed, feedback := some (fb.getD ⟨none, none⟩) }

/-- Ride.findByIdAndUpdate of the end handler: applies the completion update document
to the ride document with the given _id. A query update does not run the pre save hook
of the ride schema, so the stored duration field keeps its previous value. -/
def completeRideUpd (db : DB) (rid : Nat) (sid : Nat) (now : Int)
    (fb : Option Feedback) : DB :=
  { db with rides := db.rides.map (fun x =>
      if x._id = rid then completeDoc sid now fb x else x) }

/-- POST /api/rides/end handler of rides.js. Checks run in source order: validation,
req.activeRide (invalid state when absent), cycle lookup by external id with isActive,
cycle-matches-active-ride, station lookup, then Ride.findByIdAndUpdate followed by
cycle.updateStatus(available). -/
def endRide (db : DB) (uid : Nat) (req : EndReq) (now : Int) : Outcome × DB :=
  match req.cycleId, req.stationId with
  | some cid, some sid =>
    if cid = "" ∨ validFeedback req.feedback = false then
      (Outcome.err 400 ErrKind.validationFailed, db)
    else
      match checkActiveRide db uid with
      | none => (Outcome.err 400 ErrKind.invalidState, db)
      | some r =>
        match findCycleByExternalId db cid with
        | none => (Outcome.err 404 ErrKind.notFound, db)
        | some cycle =>
          if cycle._id ≠ r.cycleId then (Outcome.err 400 ErrKind.invalidState, db)
          else
            match findStationById db sid with
            | none => (Outcome.err 404 ErrKind.notFound, db)
            | some _ =>
              (Outcome.ok 200,
               updateCycleStatus (completeRideUpd db r._id sid now req.feedback)
                 cycle._id CycleStatus.available)
  | _, _ => (Outcome.err 400 ErrKind.validationFailed, db)

/-- Update document of the cancel handler: endTime now and status cancelled. -/
def cancelDoc (now : Int) (x : Ride) : Ride :=
  { x with endTime := some now, status := RideStatus.cancelled }

/-- Ride.findByIdAndUpdate of the cancel handler: applies the cancellation update
document to the ride document with the given _id (again no pre save hook, and no
endStation). -/
def cancelRideUpd (db : DB) (rid : Nat) (now : Int) : DB :=
  { db with rides := db.rides.map (fun x =>
      if x._id = rid then cancelDoc now x else x) }

/-- POST /api/rides/cancel handler of rides.js: requires an active ride, cancels it
and writes the referenced cycle back to available. -/
def cancelRide (db : DB) (uid : Nat) (now : Int) : Outcome × DB :=
  match checkActiveRide db uid with
  | none => (Outcome.err 400 ErrKind.invalidState, db)
  | some r =>
    (Outcome.ok 200,
     updateCycleStatus (cancelRideUpd db r._id now) r.cycleId CycleStatus.available)

/-- PATCH /api/cycles/:id/status handler of the cycles router: the enum validation has
already restricted the body to a CycleStatus; the handler fetches by _id and writes the
requested status unconditionally. -/
def adminUpdateCycleStatus (db : DB) (cid : Nat) (st : CycleStatus) : Outcome × DB :=
  match findCycleById db cid with
  | none => (Outcome.err 404 ErrKind.notFound, db)
  | some _ => (Outcome.ok 200, updateCycleStatus db cid st)

/-- The pre save hook of the ride schema: when endTime (and startTime) are set,
duration becomes the elapsed milliseconds divided by 60000, Math.rounded to minutes.
It only runs on document save, never on findByIdAndUpdate. -/
def rideSchemaPreSave (r : Ride) : Ride :=
  match r.endTime with
  | some e => { r with duration := jsRound (((e - r.startTime : ℤ) : ℚ) / 60000) }
  | none => r

/-- The formattedDuration virtual of the ride schema: a falsy (zero) duration renders
as Ongoing, otherwise hours = Math.floor(duration / 60) and minutes = duration % 60. -/
def formattedDuration (r : Ride) : String :=
  if r.duration = 0 then "Ongoing"
  else
    let hours := Int.fdiv r.duration 60
    let minutes := jsRem r.duration 60
    if hours > 0 then toString hours ++ "h " ++ toString minutes ++ "m"
    else toString minutes ++ "m"

/-- The cost virtual of the ride schema: a falsy (zero) duration costs 0, otherwise
Math.ceil(duration / 60) times the 1-per-hour rate. -/
def cost (r : Ride) : ℤ :=
  if r.duration = 0 then 0
  else ⌈(r.duration : ℚ) / 60⌉ * 1

/-- Group document produced by the Ride.getUserStats aggregation. -/
structure UserStats where
  totalRides : Nat
  totalDuration : ℤ
  totalCost : ℤ
deriving DecidableEq, Repr

/-- Ride.getUserStats aggregation of Ride.js: match userId and status completed, then a
single group summing 1, duration, and ceil(duration / 60) * 1. An empty match produces
no group at all. -/
def getUserStats (db : DB) (uid : Nat) : Option UserStats :=
  let matched := db.rides.filter (fun r =>
    r.userId == uid && r.status == RideStatus.completed)
  if matched.isEmpty then none
  else some
    { totalRides := matched.length,
      totalDuration := (matched.map Ride.duration).sum,
      totalCost := (matched.map (fun r => ⌈(r.duration : ℚ) / 60⌉ * 1)).sum }

/-- Response of GET /api/users/:id/stats: stats plus the derived average. -/
structure UserStatsResp where
  stats : UserStats
  avgDuration : ℤ
deriving DecidableEq, Repr

/-- GET /api/users/:id/stats handler of users.js: the first aggregation group, or all
zeros when there is none, plus avgDuration = Math.round(totalDuration / totalRides)
when totalRides is positive and 0 otherwise. -/
def userStatsEndpoint (db : DB) (uid : Nat) : UserStatsResp :=
  let result := (getUserStats db uid).getD ⟨0, 0, 0⟩
  { stats := result,
    avgDuration :=
      if result.totalRides > 0 then
        jsRound ((result.totalDuration : ℚ) / (result.totalRides : ℚ))
      else 0 }

/-- Math.round(x * 100) / 100, the two-decimal rounding applied to revenue totals. -/
def round2 (q : ℚ) : ℚ := (jsRound (q * 100) : ℚ) / 100

/-- Ride.find with endTime exists true, the dashboard selection: every ride document of
this store carries an endTime field (null by schema default), so the filter keeps all
rides, active ones included. -/
def findEndTimeExists (db : DB) : List Ride := db.rides

/-- Revenue total of GET /api/admin/dashboard over its selected rides: reduce of
duration minutes over 60 times the 10-per-hour rate, then rounded to two decimals. -/
def dashboardRevenue (rides : List Ride) : ℚ :=
  round2 (rides.foldl (fun sum r => sum + ((r.duration : ℚ) / 60) * 10) 0)

/-- Revenue total of GET /api/admin/analytics/rides over the rides of the queried
window: reduce of (duration or 0) over 60 times 10, rounded to two decimals. -/
def analyticsRevenue (rides : List Ride) : ℚ :=
  round2 (rides.foldl (fun sum r => sum + ((r.duration : ℚ) / 60) * 10) 0)

/-- Revenue total of GET /api/admin/reports/comprehensive over the rides of the queried
range: reduce of (duration or 0) over 60 times 10, rounded to two decimals. -/
def reportsRevenue (rides : List Ride) : ℚ :=
  round2 (rides.foldl (fun sum r => sum + ((r.duration : ℚ) / 60) * 10) 0)

/-- Active rides of a rider (counted by ride status, as the invariant claims state). -/
def activeForRider (db : DB) (uid : Nat) : List Ride :=
  db.rides.filter (fun r => r.userId == uid && r.status == RideStatus.active)

/-- Active rides referencing a cycle object id. -/
def activeForCycle (db : DB) (cid : Nat) : List Ride :=
  db.rides.filter (fun r => r.cycleId == cid && r.status == RideStatus.active)

/-- At most one active ride per rider. -/
def riderInv (db : DB) : Prop := ∀ uid, (activeForRider db uid).length ≤ 1

/-- At most one active ride per cycle. -/
def cycleRideInv (db : DB) : Prop := ∀ cid, (activeForCycle db cid).length ≤ 1

/-- A ride is in active status exactly when its endTime is still null. -/
def activeIffNoEnd (db : DB) : Prop :=
  ∀ r ∈ db.rides, (r.status = RideStatus.active ↔ r.endTime = none)

/-- Ride object ids are pairwise distinct. -/
def rideIdsNodup (db : DB) : Prop := (db.rides.map Ride._id).Nodup

/-- Ride object ids stay below the fresh-id counter. -/
def rideIdsFresh (db : DB) : Prop := ∀ r ∈ db.rides, r._id < db.nextRideId

/-- Cycle availability invariant of the spec: a cycle is in-use exactly when an active
ride references it. -/
def cycleStatusInv (db : DB) : Prop :=
  ∀ c ∈ db.cycles,
    (c.status = CycleStatus.inUse ↔
      ∃ r ∈ db.rides, r.status = RideStatus.active ∧ r.cycleId = c._id)

/-- Inductive well-formedness of a store state. -/
def Inv (db : DB) : Prop :=
  rideIdsNodup db ∧ rideIdsFresh db ∧ activeIffNoEnd db ∧ riderInv db ∧
    cycleRideInv db ∧ cycleStatusInv db

/-- One successful-or-failed execution of a ride lifecycle handler (fault-free runs). -/
inductive RideStep : DB → DB → Prop
  | start (db : DB) (uid : Nat) (req : StartReq) (now : Int) :
      RideStep db (startRide db uid req now false).2
  | endR (db : DB) (uid : Nat) (req : EndReq) (now : Int) :
      RideStep db (endRide db uid req now).2
  | cancel (db : DB) (uid : Nat) (now : Int) :
      RideStep db (cancelRide db uid now).2

/-- One execution of any of the four exposed operations of the claims: the three ride
handlers or the administrator cycle status update. -/
inductive Step : DB → DB → Prop
  | ride (db db2 : DB) : RideStep db db2 → Step db db2
  | adminStatus (db : DB) (cid : Nat) (st : CycleStatus) :
      Step db (adminUpdateCycleStatus db cid st).2

/-- Reflexive-transitive closure of a step relation on stores. -/
inductive Reach (R : DB → DB → Prop) : DB → DB → Prop
  | refl (db : DB) : Reach R db db
  | tail (db1 db2 db3 : DB) : Reach R db1 db2 → R db2 db3 → Reach R db1 db3

/-- Completed rides of a rider, phrased the way the statistics properties are stated. -/
def completedRidesOf (db : DB) (uid : Nat) : List Ride :=
  db.rides.filter (fun r => r.userId == uid && r.status == RideStatus.completed)

theorem length_le_one_eq {α : Type} {l : List α} (h : l.length ≤ 1) :
    ∀ a ∈ l, ∀ b ∈ l, a = b := by
  match l with
  | [] => intro a ha; cases ha
  | [x] =>
    intro a ha b hb
    rw [List.mem_singleton] at ha hb
    rw [ha, hb]
  | x :: y :: t => simp at h

theorem eq_of_nodup_map {α β : Type} {f : α → β} {l : List α}
    (h : (l.map f).Nodup) {a b : α} (ha : a ∈ l) (hb : b ∈ l) (hf : f a = f b) :
    a = b := by
  induction l with
  | nil => cases ha
  | cons x t ih =>
    rw [List.map_cons, List.nodup_cons] at h
    rcases List.mem_cons.mp ha with ha1 | ha1 <;>
      rcases List.mem_cons.mp hb with hb1 | hb1
    · rw [ha1, hb1]
    · have hm : f x ∈ List.map f t := by
        rw [← ha1, hf]; exact List.mem_map_of_mem f hb1
      exact absurd hm h.1
    · have hm : f x ∈ List.map f t := by
        rw [← hb1, ← hf]; exact List.mem_map_of_mem f ha1
      exact absurd hm h.1
    · exact ih h.2 ha1 hb1

theorem findActiveRide_some {db : DB} {uid : Nat} {r : Ride}
    (h : findActiveRide db uid = some r) :
    r ∈ db.rides ∧ r.userId = uid ∧ r.status = RideStatus.active ∧ r.endTime = none := by
  refine ⟨List.mem_of_find?_eq_some h, ?_⟩
  have hp := List.find?_some h
  simp only [Bool.and_eq_true, beq_iff_eq] at hp
  exact ⟨hp.1.1, hp.1.2, hp.2⟩

theorem findActiveRide_none {db : DB} {uid : Nat}
    (h : findActiveRide db uid = none) :
    ∀ r ∈ db.rides,
      ¬(r.userId = uid ∧ r.status = RideStatus.active ∧ r.endTime = none) := by
  intro r hr hcf
  have hnp := List.find?_eq_none.mp h r hr
  simp only [Bool.and_eq_true, beq_iff_eq] at hnp
  exact hnp ⟨⟨hcf.1, hcf.2.1⟩, hcf.2.2⟩

theorem findCycleByExternalId_some {db : DB} {cid : String} {c : Cycle}
    (h : findCycleByExternalId db cid = some c) :
    c ∈ db.cycles ∧ c.cycleId = cid ∧ c.isActive = true := by
  refine ⟨List.mem_of_find?_eq_some h, ?_⟩
  have hp := List.find?_some h
  simp only [Bool.and_eq_true, beq_iff_eq] at hp
  exact hp

/-- Shape of the start handler on the store: either the store is untouched (any of the
failure answers) or all five checks passed and the ride insert plus cycle write ran. -/
theorem startRide_shape (db : DB) (uid : Nat) (req : StartReq) (now : Int) :
    (startRide db uid req now false).2 = db ∨
    ∃ cid sid cycle, req.cycleId = some cid ∧ req.stationId = some sid ∧
      checkActiveRide db uid = none ∧
      findCycleByExternalId db cid = some cycle ∧
      cycle.status = CycleStatus.available ∧
      (startRide db uid req now false).2 =
        updateCycleStatus (addRide db (mkRide db uid cycle sid now)) cycle._id
          CycleStatus.inUse := by
  cases hcid : req.cycleId with
  | none => left; simp [startRide, hcid]
  | some cid =>
    cases hsid : req.stationId with
    | none => left; simp [startRide, hcid, hsid]
    | some sid =>
      by_cases hemp : cid = ""
      · left; simp [startRide, hcid, hsid, hemp]
      · cases hact : checkActiveRide db uid with
        | some r => left; simp [startRide, hcid, hsid, hemp, hact]
        | none =>
          cases hcy : findCycleByExternalId db cid with
          | none => left; simp [startRide, hcid, hsid, hemp, hact, hcy]
          | some cycle =>
            by_cases hav : cycle.status = CycleStatus.available
            · cases hstn : findStationById db sid with
              | none => left; simp [startRide, hcid, hsid, hemp, hact, hcy, hav, hstn]
              | some st =>
                right
                refine ⟨cid, sid, cycle, rfl, rfl, rfl, hcy, hav, ?_⟩
                simp [startRide, hcid, hsid, hemp, hact, hcy, hav, hstn]
            · left; simp [startRide, hcid, hsid, hemp, hact, hcy, hav]

/-- Shape of the end handler on the store: untouched, or all checks passed and the ride
completion plus cycle write ran on the active ride and its cycle. -/
theorem endRide_shape (db : DB) (uid : Nat) (req : EndReq) (now : Int) :
    (endRide db uid req now).2 = db ∨
    ∃ cid sid r cycle, req.cycleId = some cid ∧ req.stationId = some sid ∧
      checkActiveRide db uid = some r ∧
      findCycleByExternalId db cid = some cycle ∧
      cycle._id = r.cycleId ∧
      (endRide db uid req now).2 =
        updateCycleStatus (completeRideUpd db r._id sid now req.feedback) cycle._id
          CycleStatus.available := by
  cases hcid : req.cycleId with
  | none => left; simp [endRide, hcid]
  | some cid =>
    cases hsid : req.stationId with
    | none => left; simp [endRide, hcid, hsid]
    | some sid =>
      by_cases hval : cid = "" ∨ validFeedback req.feedback = false
      · left; simp only [endRide, hcid, hsid, if_pos hval]
      · cases hact : checkActiveRide db uid with
        | none => left; simp only [endRide, hcid, hsid, if_neg hval, hact]
        | some r =>
          cases hcy : findCycleByExternalId db cid with
          | none => left; simp only [endRide, hcid, hsid, if_neg hval, hact, hcy]
          | some cycle =>
            by_cases hmat : cycle._id = r.cycleId
            · cases hstn : findStationById db sid with
              | none =>
                left
                simp only [endRide, hcid, hsid, if_neg hval, hact, hcy, hstn]
                simp [hmat]
              | some st =>
                right
                refine ⟨cid, sid, r, cycle, rfl, rfl, rfl, hcy, hmat, ?_⟩
                simp only [endRide, hcid, hsid, if_neg hval, hact, hcy, hstn]
                simp [hmat]
            · left
              simp only [endRide, hcid, hsid, if_neg hval, hact, hcy]
              simp [hmat]

/-- Shape of the cancel handler on the store. -/
theorem cancelRide_shape (db : DB) (uid : Nat) (now : Int) :
    (cancelRide db uid now).2 = db ∨
    ∃ r, checkActiveRide db uid = some r ∧
      (cancelRide db uid now).2 =
        updateCycleStatus (cancelRideUpd db r._id now) r.cycleId CycleStatus.available := by
  cases hact : checkActiveRide db uid with
  | none => left; simp [cancelRide, hact]
  | some r => right; exact ⟨r, rfl, by simp [cancelRide, hact]⟩

theorem map_preserves_ids {l : List Ride} {f : Ride → Ride}
    (hf : ∀ x, (f x)._id = x._id) : (l.map f).map Ride._id = l.map Ride._id := by
  induction l with
  | nil => rfl
  | cons a t ih => simp only [List.map_cons, hf a, ih]

theorem finish_countP_le (l : List Ride) (rid : Nat) (g : Ride → Ride)
    (hgst : ∀ x, (g x).status ≠ RideStatus.active) (p : Ride → Bool)
    (hp : ∀ x, p x = true → x.status = RideStatus.active) :
    (l.map (fun x => if x._id = rid then g x else x)).countP p ≤ l.countP p := by
  rw [List.countP_map]
  apply List.countP_mono_left
  intro x _ hpx
  by_cases hid : x._id = rid
  · simp only [Function.comp_apply, if_pos hid] at hpx
    exact absurd (hp _ hpx) (hgst x)
  · simpa only [Function.comp_apply, if_neg hid] using hpx

/-- Completing or cancelling the active ride of a rider and writing its cycle back to
available preserves the full invariant. The function g abstracts the update document of
the respective findByIdAndUpdate call. -/
theorem inv_finish (db : DB) (uid : Nat) (r : Ride) (g : Ride → Ride)
    (hgid : ∀ x, (g x)._id = x._id)
    (hgst : ∀ x, (g x).status ≠ RideStatus.active)
    (hgend : ∀ x, (g x).endTime ≠ none)
    (hfa : findActiveRide db uid = some r)
    (hinv : Inv db) :
    Inv (updateCycleStatus
      { db with rides := db.rides.map (fun x => if x._id = r._id then g x else x) }
      r.cycleId CycleStatus.available) := by
  obtain ⟨hnodup, hfresh, haine, _hrider, hcyccnt, hcstat⟩ := hinv
  obtain ⟨hrmem, hruid, hrst, hrend⟩ := findActiveRide_some hfa
  have hfid : ∀ x : Ride,
      ((fun x => if x._id = r._id then g x else x) x)._id = x._id := by
    intro x; by_cases hid : x._id = r._id <;> simp [hid, hgid]
  refine ⟨?_, ?_, ?_, ?_, ?_, ?_⟩
  · show ((db.rides.map _).map Ride._id).Nodup
    rw [map_preserves_ids hfid]
    exact hnodup
  · intro r2 hr2
    obtain ⟨x, hx, hfx⟩ := List.mem_map.mp hr2
    show r2._id < db.nextRideId
    rw [← hfx, hfid x]
    exact hfresh x hx
  · intro r2 hr2
    obtain ⟨x, hx, hfx⟩ := List.mem_map.mp hr2
    by_cases hid : x._id = r._id
    · rw [← hfx]
      simp only [if_pos hid]
      constructor
      · intro hst; exact absurd hst (hgst x)
      · intro hend; exact absurd hend (hgend x)
    · rw [← hfx]; simp only [if_neg hid]; exact haine x hx
  · intro uid2
    show ((db.rides.map _).filter _).length ≤ 1
    rw [← List.countP_eq_length_filter]
    calc (db.rides.map _).countP _ ≤ db.rides.countP
          (fun r2 => r2.userId == uid2 && r2.status == RideStatus.active) := by
          apply finish_countP_le db.rides r._id g hgst
          intro x hpx
          simp only [Bool.and_eq_true, beq_iff_eq] at hpx
          exact hpx.2
      _ ≤ 1 := by
          rw [List.countP_eq_length_filter]
          exact _hrider uid2
  · intro cid2
    show ((db.rides.map _).filter _).length ≤ 1
    rw [← List.countP_eq_length_filter]
    calc (db.rides.map _).countP _ ≤ db.rides.countP
          (fun r2 => r2.cycleId == cid2 && r2.status == RideStatus.active) := by
          apply finish_countP_le db.rides r._id g hgst
          intro x hpx
          simp only [Bool.and_eq_true, beq_iff_eq] at hpx
          exact hpx.2
      _ ≤ 1 := by
          rw [List.countP_eq_length_filter]
          exact hcyccnt cid2
  · intro c2 hc2
    obtain ⟨c, hc, hfc⟩ := List.mem_map.mp hc2
    by_cases hcid : c._id = r.cycleId
    · rw [← hfc]
      simp only [if_pos hcid]
      constructor
      · intro hst; cases hst
      · rintro ⟨r2, hr2, hr2st, hr2cy⟩
        obtain ⟨x, hx, hfx⟩ := List.mem_map.mp hr2
        by_cases hxid : x._id = r._id
        · rw [← hfx] at hr2st
          simp only [if_pos hxid] at hr2st
          exact absurd hr2st (hgst x)
        · rw [← hfx] at hr2st hr2cy
          simp only [if_neg hxid] at hr2st hr2cy
          have hxr : x = r := by
            apply length_le_one_eq (hcyccnt r.cycleId) x ?_ r ?_
            · simp only [activeForCycle, List.mem_filter]
              refine ⟨hx, ?_⟩
              simp only [Bool.and_eq_true, beq_iff_eq]
              exact ⟨by rw [hr2cy, hcid], hr2st⟩
            · simp only [activeForCycle, List.mem_filter]
              refine ⟨hrmem, ?_⟩
              simp only [Bool.and_eq_true, beq_iff_eq]
              exact ⟨trivial, hrst⟩
          exact (hxid (by rw [hxr])).elim
    · rw [← hfc]
      simp only [if_neg hcid]
      have hold := hcstat c hc
      constructor
      · intro hst
        obtain ⟨x0, hx0, hx0st, hx0cy⟩ := hold.mp hst
        by_cases hx0id : x0._id = r._id
        · have hx0r : x0 = r := eq_of_nodup_map hnodup hx0 hrmem hx0id
          exact absurd (by rw [← hx0r, hx0cy]) (Ne.symm hcid)
        · refine ⟨x0, ?_, ?_, hx0cy⟩
          · have : (fun x => if x._id = r._id then g x else x) x0 = x0 := by
              simp [hx0id]
            rw [← this]
            exact List.mem_map_of_mem _ hx0
          · exact hx0st
      · rintro ⟨r2, hr2, hr2st, hr2cy⟩
        obtain ⟨x, hx, hfx⟩ := List.mem_map.mp hr2
        by_cases hxid : x._id = r._id
        · rw [← hfx] at hr2st
          simp only [if_pos hxid] at hr2st
          exact absurd hr2st (hgst x)
        · rw [← hfx] at hr2st hr2cy
          simp only [if_neg hxid] at hr2st hr2cy
          exact hold.mpr ⟨x, hx, hr2st, hr2cy⟩

/-- A start whose five checks all passed preserves the full invariant. -/
theorem inv_start (db : DB) (uid : Nat) (cycle : Cycle) (sid : Nat) (now : Int)
    (hfa : findActiveRide db uid = none)
    (hmem : cycle ∈ db.cycles)
    (hav : cycle.status = CycleStatus.available)
    (hinv : Inv db) :
    Inv (updateCycleStatus (addRide db (mkRide db uid cycle sid now)) cycle._id
      CycleStatus.inUse) := by
  obtain ⟨hnodup, hfresh, haine, hrider, hcyccnt, hcstat⟩ := hinv
  have hnone := findActiveRide_none hfa
  refine ⟨?_, ?_, ?_, ?_, ?_, ?_⟩
  · show ((db.rides ++ [mkRide db uid cycle sid now]).map Ride._id).Nodup
    rw [List.map_append, List.nodup_append]
    refine ⟨hnodup, by simp, ?_⟩
    intro a ha hb
    simp only [List.map_cons, List.map_nil, List.mem_singleton] at hb
    obtain ⟨x, hx, hxa⟩ := List.mem_map.mp ha
    have hlt := hfresh x hx
    have hb2 : a = db.nextRideId := by simpa [mkRide] using hb
    rw [hxa, hb2] at hlt
    exact absurd hlt (lt_irrefl _)
  · intro r2 hr2
    show r2._id < db.nextRideId + 1
    rcases List.mem_append.mp hr2 with h | h
    · exact Nat.lt_succ_of_lt (hfresh r2 h)
    · rw [List.mem_singleton] at h
      rw [h]
      exact Nat.lt_succ_self _
  · intro r2 hr2
    rcases List.mem_append.mp hr2 with h | h
    · exact haine r2 h
    · rw [List.mem_singleton] at h
      rw [h]
      simp [mkRide]
  · intro uid2
    show ((db.rides ++ [mkRide db uid cycle sid now]).filter _).length ≤ 1
    rw [← List.countP_eq_length_filter, List.countP_append]
    by_cases huid : uid2 = uid
    · have hz : db.rides.countP
          (fun r2 => r2.userId == uid2 && r2.status == RideStatus.active) = 0 := by
        rw [List.countP_eq_zero]
        intro x hx hpx
        simp only [Bool.and_eq_true, beq_iff_eq] at hpx
        exact hnone x hx ⟨by rw [hpx.1, huid], hpx.2, (haine x hx).mp hpx.2⟩
      rw [hz]
      simp [List.countP_cons, mkRide, huid]
    · have hz : ([mkRide db uid cycle sid now].countP
          (fun r2 => r2.userId == uid2 && r2.status == RideStatus.active)) = 0 := by
        simp only [List.countP_cons, List.countP_nil, mkRide, Nat.zero_add]
        rw [if_neg]
        intro hp
        simp only [Bool.and_eq_true, beq_iff_eq] at hp
        exact huid hp.1.symm
      rw [hz, Nat.add_zero, List.countP_eq_length_filter]
      exact hrider uid2
  · intro cid2
    show ((db.rides ++ [mkRide db uid cycle sid now]).filter _).length ≤ 1
    rw [← List.countP_eq_length_filter, List.countP_append]
    by_cases hcid : cid2 = cycle._id
    · have hz : db.rides.countP
          (fun r2 => r2.cycleId == cid2 && r2.status == RideStatus.active) = 0 := by
        rw [List.countP_eq_zero]
        intro x hx hpx
        simp only [Bool.and_eq_true, beq_iff_eq] at hpx
        have hnotuse : ¬cycle.status = CycleStatus.inUse := by
          rw [hav]; intro h; cases h
        exact hnotuse ((hcstat cycle hmem).mpr ⟨x, hx, hpx.2, by rw [hpx.1, hcid]⟩)
      rw [hz]
      simp [List.countP_cons, mkRide, hcid]
    · have hz : ([mkRide db uid cycle sid now].countP
          (fun r2 => r2.cycleId == cid2 && r2.status == RideStatus.active)) = 0 := by
        simp only [List.countP_cons, List.countP_nil, mkRide, Nat.zero_add]
        rw [if_neg]
        intro hp
        simp only [Bool.and_eq_true, beq_iff_eq] at hp
        exact hcid hp.1.symm
      rw [hz, Nat.add_zero, List.countP_eq_length_filter]
      exact hcyccnt cid2
  · intro c2 hc2
    obtain ⟨c, hc, hfc⟩ := List.mem_map.mp hc2
    by_cases hcid : c._id = cycle._id
    · rw [← hfc, if_pos hcid]
      constructor
      · intro _
        refine ⟨mkRide db uid cycle sid now,
          List.mem_append.mpr (Or.inr (List.mem_singleton.mpr rfl)), rfl, ?_⟩
        show cycle._id = c._id
        rw [hcid]
      · intro _
        rfl
    · rw [← hfc, if_neg hcid]
      have hold := hcstat c hc
      constructor
      · intro hst
        obtain ⟨x0, hx0, hs, hcy⟩ := hold.mp hst
        exact ⟨x0, List.mem_append.mpr (Or.inl hx0), hs, hcy⟩
      · rintro ⟨r2, hr2, hs, hcy⟩
        rcases List.mem_append.mp hr2 with h | h
        · exact hold.mpr ⟨r2, h, hs, hcy⟩
        · rw [List.mem_singleton] at h
          rw [h] at hcy
          exact (hcid hcy.symm).elim

/-- Every fault-free ride handler execution preserves the invariant. -/
theorem inv_rideStep {db db2 : DB} (h : RideStep db db2) (hinv : Inv db) : Inv db2 := by
  cases h with
  | start uid req now =>
    rcases startRide_shape db uid req now with
      hsame | ⟨cid, sid, cycle, _, _, hact, hcy, hav, hres⟩
    · rw [hsame]; exact hinv
    · rw [hres]
      obtain ⟨hmem, -, -⟩ := findCycleByExternalId_some hcy
      exact inv_start db uid cycle sid now hact hmem hav hinv
  | endR uid req now =>
    rcases endRide_shape db uid req now with
      hsame | ⟨cid, sid, r, cycle, _, _, hact, hcy, hmat, hres⟩
    · rw [hsame]; exact hinv
    · rw [hres, hmat]
      exact inv_finish db uid r (completeDoc sid now req.feedback)
        (fun x => rfl) (fun x h => by simp [completeDoc] at h)
        (fun x h => by simp [completeDoc] at h) hact hinv
  | cancel uid now =>
    rcases cancelRide_shape db uid now with hsame | ⟨r, hact, hres⟩
    · rw [hsame]; exact hinv
    · rw [hres]
      exact inv_finish db uid r (cancelDoc now)
        (fun x => rfl) (fun x h => by simp [cancelDoc] at h)
        (fun x h => by simp [cancelDoc] at h) hact hinv

/-- The invariant holds in every store reachable through the three ride handlers. -/
theorem inv_reach {db db2 : DB} (h : Reach RideStep db db2) (hinv : Inv db) : Inv db2 := by
  induction h with
  | refl => exact hinv
  | tail _ _ _ hstep ih => exact inv_rideStep hstep ih

/-- Rider-side invariant: the part of the invariant the cycle routes cannot disturb. -/
def InvR (db : DB) : Prop := activeIffNoEnd db ∧ riderInv db

theorem activeIffNoEnd_finishUpd {db : DB} {rid : Nat} {g : Ride → Ride}
    (hgst : ∀ x, (g x).status ≠ RideStatus.active)
    (hgend : ∀ x, (g x).endTime ≠ none)
    (h : activeIffNoEnd db) :
    activeIffNoEnd
      { db with rides := db.rides.map (fun x => if x._id = rid then g x else x) } := by
  intro r2 hr2
  obtain ⟨x, hx, hfx⟩ := List.mem_map.mp hr2
  by_cases hid : x._id = rid
  · rw [← hfx]
    simp only [if_pos hid]
    exact ⟨fun hst => absurd hst (hgst x), fun he => absurd he (hgend x)⟩
  · rw [← hfx]
    simp only [if_neg hid]
    exact h x hx

theorem riderInv_finishUpd {db : DB} {rid : Nat} {g : Ride → Ride}
    (hgst : ∀ x, (g x).status ≠ RideStatus.active)
    (h : riderInv db) :
    riderInv
      { db with rides := db.rides.map (fun x => if x._id = rid then g x else x) } := by
  intro uid2
  show ((db.rides.map _).filter _).length ≤ 1
  rw [← List.countP_eq_length_filter]
  calc (db.rides.map _).countP _ ≤ db.rides.countP
        (fun r2 => r2.userId == uid2 && r2.status == RideStatus.active) := by
        apply finish_countP_le db.rides rid g hgst
        intro x hpx
        simp only [Bool.and_eq_true, beq_iff_eq] at hpx
        exact hpx.2
    _ ≤ 1 := by
        rw [List.countP_eq_length_filter]
        exact h uid2

theorem activeIffNoEnd_addRide (db : DB) (uid : Nat) (cycle : Cycle) (sid : Nat)
    (now : Int) (h : activeIffNoEnd db) :
    activeIffNoEnd (addRide db (mkRide db uid cycle sid now)) := by
  intro r2 hr2
  rcases List.mem_append.mp hr2 with hm | hm
  · exact h r2 hm
  · rw [List.mem_singleton] at hm
    rw [hm]
    simp [mkRide]

theorem riderInv_addRide (db : DB) (uid : Nat) (cycle : Cycle) (sid : Nat) (now : Int)
    (hfa : findActiveRide db uid = none) (haine : activeIffNoEnd db)
    (h : riderInv db) :
    riderInv (addRide db (mkRide db uid cycle sid now)) := by
  have hnone := findActiveRide_none hfa
  intro uid2
  show ((db.rides ++ [mkRide db uid cycle sid now]).filter _).length ≤ 1
  rw [← List.countP_eq_length_filter, List.countP_append]
  by_cases huid : uid2 = uid
  · have hz : db.rides.countP
        (fun r2 => r2.userId == uid2 && r2.status == RideStatus.active) = 0 := by
      rw [List.countP_eq_zero]
      intro x hx hpx
      simp only [Bool.and_eq_true, beq_iff_eq] at hpx
      exact hnone x hx ⟨by rw [hpx.1, huid], hpx.2, (haine x hx).mp hpx.2⟩
    rw [hz]
    simp [List.countP_cons, mkRide, huid]
  · have hz : ([mkRide db uid cycle sid now].countP
        (fun r2 => r2.userId == uid2 && r2.status == RideStatus.active)) = 0 := by
      simp only [List.countP_cons, List.countP_nil, mkRide, Nat.zero_add]
      rw [if_neg]
      intro hp
      simp only [Bool.and_eq_true, beq_iff_eq] at hp
      exact huid hp.1.symm
    rw [hz, Nat.add_zero, List.countP_eq_length_filter]
    exact h uid2

/-- The rides collection is untouched by the admin cycle status route. -/
theorem adminUpdate_rides (db : DB) (cid : Nat) (st : CycleStatus) :
    (adminUpdateCycleStatus db cid st).2.rides = db.rides := by
  cases h : findCycleById db cid with
  | none => simp [adminUpdateCycleStatus, h]
  | some c => simp [adminUpdateCycleStatus, h, updateCycleStatus]

/-- All four exposed operations preserve the rider-side invariant. -/
theorem invR_step {db db2 : DB} (h : Step db db2) (hinv : InvR db) : InvR db2 := by
  cases h with
  | ride _ hr =>
    cases hr with
    | start uid req now =>
      rcases startRide_shape db uid req now with
        hsame | ⟨cid, sid, cycle, _, _, hact, hcy, hav, hres⟩
      · rw [hsame]; exact hinv
      · rw [hres]
        exact ⟨activeIffNoEnd_addRide db uid cycle sid now hinv.1,
               riderInv_addRide db uid cycle sid now hact hinv.1 hinv.2⟩
    | endR uid req now =>
      rcases endRide_shape db uid req now with
        hsame | ⟨cid, sid, r, cycle, _, _, hact, hcy, hmat, hres⟩
      · rw [hsame]; exact hinv
      · rw [hres]
        exact ⟨activeIffNoEnd_finishUpd (fun x h => by cases h) (fun x h => by cases h)
                 hinv.1,
               riderInv_finishUpd (fun x h => by cases h) hinv.2⟩
    | cancel uid now =>
      rcases cancelRide_shape db uid now with hsame | ⟨r, hact, hres⟩
      · rw [hsame]; exact hinv
      · rw [hres]
        exact ⟨activeIffNoEnd_finishUpd (fun x h => by cases h) (fun x h => by cases h)
                 hinv.1,
               riderInv_finishUpd (fun x h => by cases h) hinv.2⟩
  | adminStatus cid st =>
    cases hfc : findCycleById db cid with
    | none => simpa [adminUpdateCycleStatus, hfc] using hinv
    | some c => simpa [adminUpdateCycleStatus, hfc] using hinv

/-- The rider-side invariant holds in every store reachable through the four
exposed operations. -/
theorem invR_reach {db db2 : DB} (h : Reach Step db db2) (hinv : InvR db) : InvR db2 := by
  induction h with
  | refl => exact hinv
  | tail _ _ _ hstep ih => exact invR_step hstep ih

/-! Concrete store fixtures used by the witnesses, counterexamples and failing-input
evaluations below. -/

/-- An available cycle document used by several fixtures. -/
def cyAvail : Cycle :=
  { _id := 1, cycleId := "CYCLE001", stationId := 1,
    status := CycleStatus.available, isActive := true }

/-- An active ride document of rider 1 on cycle 1. -/
def rideActive1 : Ride :=
  { _id := 0, userId := 1, cycleId := 1, stationId := 1, startStation := 1,
    endStation := none, startTime := 0, endTime := none, duration := 0,
    status := RideStatus.active, feedback := none }

/-- One available cycle, one station, no rides. -/
def dbC1 : DB :=
  { cycles := [cyAvail], rides := [],
    stations := [{ _id := 1, isActive := true }], nextRideId := 0 }

/-- The store after the administrator writes status in-use on cycle 1 of dbC1. -/
def dbC1bad : DB := (adminUpdateCycleStatus dbC1 1 CycleStatus.inUse).2

theorem inv_dbC1 : Inv dbC1 := by
  refine ⟨?_, ?_, ?_, ?_, ?_, ?_⟩
  · simp [rideIdsNodup, dbC1]
  · intro r hr; simp [dbC1] at hr
  · intro r hr; simp [dbC1] at hr
  · intro uid; simp [activeForRider, dbC1]
  · intro cid; simp [activeForCycle, dbC1]
  · intro c hc
    simp only [dbC1, List.mem_singleton] at hc
    rw [hc]
    constructor
    · intro h; cases h
    · rintro ⟨r, hr, -⟩; simp [dbC1] at hr

/-- C1: for every cycle, in every state reachable through the exposed operations
including the administrator cycle status update, status equals in-use iff an active
ride references the cycle. Counterexample: from the consistent store dbC1 a single
administrator status write reaches a store where cycle 1 is in-use although no ride
exists at all. -/
theorem C1_admin_status_breaks_invariant :
    Inv dbC1 ∧ Reach Step dbC1 dbC1bad ∧ ¬cycleStatusInv dbC1bad := by
  refine ⟨inv_dbC1, ?_, ?_⟩
  · exact Reach.tail _ _ _ (Reach.refl dbC1) (Step.adminStatus dbC1 1 CycleStatus.inUse)
  · intro h
    have hmem : { cyAvail with status := CycleStatus.inUse } ∈ dbC1bad.cycles := by
      decide
    obtain ⟨r, hr, -⟩ := (h _ hmem).mp rfl
    have hnil : dbC1bad.rides = [] := by decide
    rw [hnil] at hr
    cases hr

/-- C1 (amended): for every cycle, in every state reachable through the three ride
lifecycle handlers (StartRide, EndRide, CancelRide) from a store satisfying the
invariant, status equals in-use iff an active ride references the cycle; the
administrator cycle status update is excluded, since it writes any status
unconditionally. -/
theorem C1_cycle_inuse_iff_active_ride (db0 db : DB) (hinv : Inv db0)
    (h : Reach RideStep db0 db) : cycleStatusInv db :=
  (inv_reach h hinv).2.2.2.2.2

theorem C1_witness : cycleStatusInv dbC1 :=
  C1_cycle_inuse_iff_active_ride dbC1 dbC1 inv_dbC1 (Reach.refl dbC1)

/-- Empty store. -/
def dbC2 : DB := { cycles := [], rides := [], stations := [], nextRideId := 0 }

theorem invR_dbC2 : InvR dbC2 := by
  constructor
  · intro r hr; simp [dbC2] at hr
  · intro uid; simp [activeForRider, dbC2]

/-- Store with one active ride of rider 1 on cycle 1. -/
def dbC2b : DB :=
  { cycles := [], stations := [], nextRideId := 1, rides := [rideActive1] }

/-- C2: at most one active ride per rider in every store reachable through the exposed
operations, and the start handler mutates nothing when the active-ride lookup returns
a ride. -/
theorem C2_at_most_one_active_ride_per_rider :
    (∀ db0 db, InvR db0 → Reach Step db0 db →
      ∀ uid, (activeForRider db uid).length ≤ 1) ∧
    (∀ db uid req now fail r, findActiveRide db uid = some r →
      (startRide db uid req now fail).2 = db) := by
  constructor
  · intro db0 db h0 hr uid
    exact (invR_reach hr h0).2 uid
  · intro db uid req now fail r hfa
    cases hcid : req.cycleId with
    | none => simp [startRide, hcid]
    | some cid =>
      cases hsid : req.stationId with
      | none => simp [startRide, hcid, hsid]
      | some sid =>
        by_cases hemp : cid = ""
        · simp [startRide, hcid, hsid, hemp]
        · simp [startRide, hcid, hsid, hemp, checkActiveRide, hfa]

theorem C2_witness :
    (activeForRider dbC2 7).length ≤ 1 ∧
    (startRide dbC2b 1 ⟨some "CYCLE001", some 1⟩ 5 false).2 = dbC2b :=
  ⟨C2_at_most_one_active_ride_per_rider.1 dbC2 dbC2 invR_dbC2 (Reach.refl dbC2) 7,
   C2_at_most_one_active_ride_per_rider.2 dbC2b 1 ⟨some "CYCLE001", some 1⟩ 5 false
     rideActive1 (by decide)⟩

/-- One available cycle and one station, no rides: the happy start path. -/
def dbC3 : DB :=
  { cycles := [cyAvail], rides := [],
    stations := [{ _id := 1, isActive := true }], nextRideId := 0 }

/-- C3 (code bug): when the cycle status write throws after Ride.create succeeded, the
start handler answers 500 from its catch block but the freshly created active ride
stays visible in the store while the cycle still reads available: the pair of writes
is not atomic and nothing is compensated. -/
theorem C3_failed_second_write_leaves_ride_visible :
    (startRide dbC3 1 ⟨some "CYCLE001", some 1⟩ 0 true).1 =
      Outcome.err 500 ErrKind.internalError ∧
    (startRide dbC3 1 ⟨some "CYCLE001", some 1⟩ 0 true).2.rides = [rideActive1] ∧
    (startRide dbC3 1 ⟨some "CYCLE001", some 1⟩ 0 true).2.cycles = dbC3.cycles := by
  refine ⟨by decide, by decide, by decide⟩

/-- Store with an active ride of rider 1 on cycle 1 and the matching cycle and
destination station present: the happy end path. -/
def dbC4 : DB :=
  { cycles := [{ cyAvail with status := CycleStatus.inUse }],
    rides := [rideActive1],
    stations := [{ _id := 2, isActive := true }], nextRideId := 1 }

/-- C4 (code bug): ending a 30 minute ride (startTime 0, endTime 1800000 ms) succeeds
but stores duration 0, because Ride.findByIdAndUpdate never runs the pre save hook
that computes round(elapsed over 60000); the hook formula would give 30. -/
theorem C4_end_ride_stores_zero_duration :
    (endRide dbC4 1 ⟨some "CYCLE001", some 2, none⟩ 1800000).1 = Outcome.ok 200 ∧
    ((endRide dbC4 1 ⟨some "CYCLE001", some 2, none⟩ 1800000).2.rides.map
      Ride.duration) = [0] ∧
    jsRound (((1800000 - 0 : ℤ) : ℚ) / 60000) = 30 ∧ (0 : ℤ) ≠ 30 := by
  refine ⟨by decide, by decide, ?_, by decide⟩
  norm_num [jsRound]

/-- C5: with a well-formed request body, when the rider has no active ride the end
handler and the cancel handler both answer 400 invalid state and leave every
collection untouched. -/
theorem C5_end_cancel_require_active (db : DB) (uid : Nat) (req : EndReq) (now : Int)
    (cid : String)
    (hcid : req.cycleId = some cid) (hcne : cid ≠ "")
    (hsid : req.stationId ≠ none) (hfb : validFeedback req.feedback = true)
    (hfa : findActiveRide db uid = none) :
    endRide db uid req now = (Outcome.err 400 ErrKind.invalidState, db) ∧
    cancelRide db uid now = (Outcome.err 400 ErrKind.invalidState, db) := by
  constructor
  · obtain ⟨s, hs⟩ := Option.ne_none_iff_exists'.mp hsid
    simp [endRide, hcid, hs, hcne, hfb, checkActiveRide, hfa]
  · simp [cancelRide, checkActiveRide, hfa]

theorem C5_witness :
    endRide dbC2 1 ⟨some "CYCLE001", some 1, none⟩ 0 =
      (Outcome.err 400 ErrKind.invalidState, dbC2) ∧
    cancelRide dbC2 1 0 = (Outcome.err 400 ErrKind.invalidState, dbC2) :=
  C5_end_cancel_require_active dbC2 1 ⟨some "CYCLE001", some 1, none⟩ 0 "CYCLE001"
    rfl (by decide) (by decide) rfl rfl

/-- C6: with an active ride present and a well-formed request, the end handler answers
404 not-found when the scanned external cycle id does not resolve, 400 invalid state
when it resolves to a cycle other than the one of the active ride, and 404 not-found
when the destination station does not resolve; in each case the store is untouched. -/
theorem C6_end_ride_mismatch_and_missing (db : DB) (uid : Nat) (req : EndReq)
    (now : Int) (cid : String) (sid : Nat) (r : Ride)
    (hcid : req.cycleId = some cid) (hcne : cid ≠ "")
    (hsid : req.stationId = some sid) (hfb : validFeedback req.feedback = true)
    (hfa : findActiveRide db uid = some r) :
    (findCycleByExternalId db cid = none →
      endRide db uid req now = (Outcome.err 404 ErrKind.notFound, db)) ∧
    (∀ c, findCycleByExternalId db cid = some c → c._id ≠ r.cycleId →
      endRide db uid req now = (Outcome.err 400 ErrKind.invalidState, db)) ∧
    (∀ c, findCycleByExternalId db cid = some c → c._id = r.cycleId →
      findStationById db sid = none →
      endRide db uid req now = (Outcome.err 404 ErrKind.notFound, db)) := by
  refine ⟨?_, ?_, ?_⟩
  · intro hcy
    simp [endRide, hcid, hsid, hcne, hfb, checkActiveRide, hfa, hcy]
  · intro c hcy hne
    simp [endRide, hcid, hsid, hcne, hfb, checkActiveRide, hfa, hcy, hne]
  · intro c hcy heq hstn
    simp [endRide, hcid, hsid, hcne, hfb, checkActiveRide, hfa, hcy, heq, hstn]

/-- Store with an active ride of rider 1 on cycle 1, while the only cycle document is
a different cycle with external id CYCLE002 and object id 2. -/
def dbC6 : DB :=
  { cycles := [{ _id := 2, cycleId := "CYCLE002", stationId := 1,
                 status := CycleStatus.inUse, isActive := true }],
    rides := [rideActive1], stations := [], nextRideId := 1 }

theorem C6_witness :
    endRide dbC6 1 ⟨some "CYCLE002", some 9, none⟩ 0 =
      (Outcome.err 400 ErrKind.invalidState, dbC6) :=
  (C6_end_ride_mismatch_and_missing dbC6 1 ⟨some "CYCLE002", some 9, none⟩ 0
      "CYCLE002" 9 rideActive1 rfl (by decide) rfl rfl (by decide)).2.1
    { _id := 2, cycleId := "CYCLE002", stationId := 1,
      status := CycleStatus.inUse, isActive := true } (by decide) (by decide)

/-- C7: with a well-formed request body, the start handler answers 400 conflict when
the rider already has an active ride, 404 not-found when no active cycle document
carries the scanned external id, 400 invalid state when the resolved cycle is not
available, and 404 not-found when the station does not resolve; in each case the
store is untouched. -/
theorem C7_start_ride_failure_cases (db : DB) (uid : Nat) (req : StartReq) (now : Int)
    (fail : Bool) (cid : String) (sid : Nat)
    (hcid : req.cycleId = some cid) (hcne : cid ≠ "")
    (hsid : req.stationId = some sid) :
    (∀ r, findActiveRide db uid = some r →
      startRide db uid req now fail = (Outcome.err 400 ErrKind.conflict, db)) ∧
    (findActiveRide db uid = none → findCycleByExternalId db cid = none →
      startRide db uid req now fail = (Outcome.err 404 ErrKind.notFound, db)) ∧
    (∀ c, findActiveRide db uid = none → findCycleByExternalId db cid = some c →
      c.status ≠ CycleStatus.available →
      startRide db uid req now fail = (Outcome.err 400 ErrKind.invalidState, db)) ∧
    (∀ c, findActiveRide db uid = none → findCycleByExternalId db cid = some c →
      c.status = CycleStatus.available → findStationById db sid = none →
      startRide db uid req now fail = (Outcome.err 404 ErrKind.notFound, db)) := by
  refine ⟨?_, ?_, ?_, ?_⟩
  · intro r hfa
    simp [startRide, hcid, hsid, hcne, checkActiveRide, hfa]
  · intro hfa hcy
    simp [startRide, hcid, hsid, hcne, checkActiveRide, hfa, hcy]
  · intro c hfa hcy hne
    simp [startRide, hcid, hsid, hcne, checkActiveRide, hfa, hcy, hne]
  · intro c hfa hcy hav hstn
    simp [startRide, hcid, hsid, hcne, checkActiveRide, hfa, hcy, hav, hstn]

theorem C7_witness :
    startRide dbC2b 1 ⟨some "CYCLE009", some 1⟩ 0 false =
      (Outcome.err 400 ErrKind.conflict, dbC2b) :=
  (C7_start_ride_failure_cases dbC2b 1 ⟨some "CYCLE009", some 1⟩ 0 false
      "CYCLE009" 1 rfl (by decide) rfl).1 rideActive1 (by decide)

/-- A completed ride of 30 minutes. -/
def rideC8 : Ride :=
  { _id := 0, userId := 1, cycleId := 1, stationId := 1, startStation := 1,
    endStation := some 1, startTime := 0, endTime := some 1800000, duration := 30,
    status := RideStatus.completed, feedback := none }

/-- C8 (counterexample): one completed 30 minute ride costs 1 through the per-ride
cost virtual (ceil of half an hour times 1) but contributes 5 to the dashboard
revenue total (half an hour times 10, no ceiling): the derivations disagree on the
same set of rides. -/
theorem C8_cost_vs_dashboard_revenue_disagree :
    cost rideC8 = 1 ∧ dashboardRevenue [rideC8] = 5 ∧
    (cost rideC8 : ℚ) ≠ dashboardRevenue [rideC8] := by
  have hceil : (⌈(1 : ℚ) / 2⌉ : ℤ) = 1 := by
    rw [Int.ceil_eq_iff]; norm_num
  have hcost : cost rideC8 = 1 := by
    rw [cost, if_neg (by norm_num [rideC8])]
    norm_num [rideC8, hceil]
  have hrev : dashboardRevenue [rideC8] = 5 := by
    norm_num [dashboardRevenue, round2, jsRound, rideC8]
  refine ⟨hcost, hrev, ?_⟩
  rw [hcost, hrev]
  norm_num

theorem cost_eq_ceil (r : Ride) : cost r = ⌈(r.duration : ℚ) / 60⌉ * 1 := by
  rw [cost]
  by_cases h : r.duration = 0
  · rw [if_pos h, h]
    norm_num
  · rw [if_neg h]

/-- C8 (amended): the per-ride cost virtual and the getUserStats aggregation agree
(both compute ceil(duration over 60) times the rate 1), and the dashboard, analytics
and reports revenue totals agree with one another (all compute duration over 60 times
the rate 10 with no ceiling); the two families disagree with each other, as the
counterexample shows. -/
theorem C8_revenue_formulas :
    (∀ db uid, (getUserStats db uid).elim 0 UserStats.totalCost =
      ((completedRidesOf db uid).map cost).sum) ∧
    (∀ rides, analyticsRevenue rides = dashboardRevenue rides ∧
      reportsRevenue rides = dashboardRevenue rides) := by
  constructor
  · intro db uid
    rw [show (completedRidesOf db uid).map cost =
        (completedRidesOf db uid).map (fun r => ⌈(r.duration : ℚ) / 60⌉ * 1) from
      List.map_congr_left (fun r _ => cost_eq_ceil r)]
    simp only [getUserStats, completedRidesOf]
    by_cases he : (db.rides.filter
        (fun r => r.userId == uid && r.status == RideStatus.completed)).isEmpty
    · rw [if_pos he]
      rw [List.isEmpty_iff] at he
      rw [he]
      simp
    · rw [if_neg he]
      simp [Option.elim]
  · intro rides
    exact ⟨rfl, rfl⟩

/-- Two completed rides of rider 1 with durations 2 and 3 minutes. -/
def dbC9 : DB :=
  { cycles := [], stations := [], nextRideId := 2,
    rides := [{ rideC8 with _id := 0, duration := 2 },
              { rideC8 with _id := 1, duration := 3 }] }

/-- C9 (counterexample): rider 1 has two completed rides of 2 and 3 minutes, so
totalDuration is 5 over 2 rides; the endpoint reports avgDuration 3 (Math.round of
2.5), which differs from the exact quotient 5 over 2 the claim states. -/
theorem C9_avg_duration_is_rounded :
    (userStatsEndpoint dbC9 1).stats.totalDuration = 5 ∧
    (userStatsEndpoint dbC9 1).stats.totalRides = 2 ∧
    (userStatsEndpoint dbC9 1).avgDuration = 3 ∧
    ((userStatsEndpoint dbC9 1).avgDuration : ℚ) ≠ (5 : ℚ) / 2 := by
  have hd : (userStatsEndpoint dbC9 1).stats.totalDuration = 5 := by
    simp [userStatsEndpoint, getUserStats, dbC9, rideC8]
  have hn : (userStatsEndpoint dbC9 1).stats.totalRides = 2 := by
    simp [userStatsEndpoint, getUserStats, dbC9, rideC8]
  have havg : (userStatsEndpoint dbC9 1).avgDuration = 3 := by
    simp only [userStatsEndpoint, getUserStats, dbC9, rideC8]
    norm_num [jsRound]
  refine ⟨hd, hn, havg, ?_⟩
  rw [havg]
  norm_num

/-- C9 (amended): totalDuration, totalCost and totalRides are the claimed sums over
the completed rides of the rider (0 when there are none), while avgDuration equals
the Math.rounded quotient of totalDuration by the ride count (not the exact
quotient), and 0 when no completed ride exists. -/
theorem C9_user_stats_equations (db : DB) (uid : Nat) :
    (userStatsEndpoint db uid).stats.totalDuration =
      ((completedRidesOf db uid).map Ride.duration).sum ∧
    (userStatsEndpoint db uid).stats.totalCost =
      ((completedRidesOf db uid).map cost).sum ∧
    (userStatsEndpoint db uid).stats.totalRides = (completedRidesOf db uid).length ∧
    (userStatsEndpoint db uid).avgDuration =
      (if (completedRidesOf db uid).length = 0 then 0
       else jsRound ((((completedRidesOf db uid).map Ride.duration).sum : ℚ) /
         ((completedRidesOf db uid).length : ℚ))) := by
  have hmap : (completedRidesOf db uid).map cost =
      (completedRidesOf db uid).map (fun r => ⌈(r.duration : ℚ) / 60⌉ * 1) :=
    List.map_congr_left (fun r _ => cost_eq_ceil r)
  rw [userStatsEndpoint, getUserStats]
  simp only [completedRidesOf] at hmap ⊢
  by_cases he : (db.rides.filter
      (fun r => r.userId == uid && r.status == RideStatus.completed)).isEmpty
  · rw [if_pos he]
    rw [List.isEmpty_iff] at he
    rw [he]
    simp
  · rw [if_neg he]
    have hlen : ¬(db.rides.filter
        (fun r => r.userId == uid && r.status == RideStatus.completed)).length = 0 := by
      rw [List.isEmpty_iff] at he
      intro h0
      exact he (List.length_eq_zero.mp h0)
    refine ⟨rfl, (congrArg List.sum hmap).symm, rfl, ?_⟩
    simp only [Option.getD_some]
    rw [if_neg hlen, if_pos (Nat.pos_of_ne_zero hlen)]

/-- A ride whose stored duration is 0 (as every ride completed by the end handler is,
and as any ride whose elapsed time rounds to zero minutes would be). -/
def rideC10 : Ride := { rideC8 with duration := 0 }

/-- C10: whenever the stored duration is 0 the cost virtual is 0 and the
formattedDuration virtual renders Ongoing instead of 0m, since both virtuals treat a
falsy duration as absent. -/
theorem C10_zero_duration_cost_and_formatting (r : Ride) (h : r.duration = 0) :
    cost r = 0 ∧ formattedDuration r = "Ongoing" := by
  constructor
  · rw [cost, if_pos h]
  · rw [formattedDuration, if_pos h]

theorem C10_witness : cost rideC10 = 0 ∧ formattedDuration rideC10 = "Ongoing" :=
  C10_zero_duration_cost_and_formatting rideC10 rfl

end SmartCycle
